import Mathlib

/-!
Verification of the PDF template-filling core: data model (Template,
TemplateField, Mapping, Profile), the document generator
(`generateFilledPDF` in src/services/pdfService.ts) and the editor
operations (`addManualField`, `deleteField`, `saveMapping`, resize handler
in src/components/TemplateEditor.tsx and its variant).

Numbers are modelled as rationals, strings as Lean strings.  The external
pdf-lib collaborators are modelled by their observable effects: the parsed
document is a list of page heights plus the set of interactive form fields
(each with a flag saying whether `setText` succeeds on it), and generation
produces the list of writer/painter invocations instead of bytes.
-/

namespace PdfFill

/-- ASCII upper-casing of one character, as JavaScript toUpperCase acts on
ASCII input. -/
def jsCharUpper (c : Char) : Char :=
  if 97 ≤ c.toNat ∧ c.toNat ≤ 122 then Char.ofNat (c.toNat - 32) else c

/-- ASCII lower-casing of one character, as JavaScript toLowerCase acts on
ASCII input. -/
def jsCharLower (c : Char) : Char :=
  if 65 ≤ c.toNat ∧ c.toNat ≤ 90 then Char.ofNat (c.toNat + 32) else c

/-- JavaScript String.prototype.toUpperCase restricted to ASCII. -/
def jsToUpper (s : String) : String := String.mk (s.data.map jsCharUpper)

/-- JavaScript String.prototype.toLowerCase restricted to ASCII. -/
def jsToLower (s : String) : String := String.mk (s.data.map jsCharLower)

/-- JavaScript `v || ''` on an optional string: undefined and the empty
string are falsy and yield `''`. -/
def jsOrEmpty : Option String → String
  | Option.none => ""
  | some s => if s == "" then "" else s

/-- JavaScript `v || d` on an optional number: undefined and 0 are falsy
and yield the default. -/
def jsOrNum : Option Rat → Rat → Rat
  | Option.none, d => d
  | some v, d => if v == 0 then d else v

/-- Field kind (src/types.ts `FieldType`). -/
inductive FieldType where
  | TEXT
  | CHECKBOX
  deriving DecidableEq, Repr

/-- One fillable region (src/types.ts `TemplateField`).  Optional numeric
attributes are `Option Rat` (absent = undefined). -/
structure TemplateField where
  id : String
  name : String
  type : FieldType
  isManual : Bool
  pageIndex : Nat
  x : Option Rat
  y : Option Rat
  width : Option Rat
  height : Option Rat
  fontSize : Option Rat
  deriving DecidableEq, Repr

/-- A binding from a TemplateField to a Profile key (src/types.ts
`Mapping`).  The tag is kept as an optional raw string, matching the
source's string comparisons. -/
structure Mapping where
  templateFieldId : String
  profileKey : String
  transformation : Option String
  deriving DecidableEq, Repr

/-- A profile: a name plus a string-keyed record of values
(src/types.ts `Profile`). -/
structure Profile where
  name : String
  fields : List (String × String)
  deriving DecidableEq, Repr

/-- The observable content of a successfully parsed document
(pdf-lib `PDFDocument`): the height of each page, and the interactive form
fields by name, each flagged with whether `setText` succeeds on it. -/
structure Doc where
  pageHeights : List Rat
  settableFields : List (String × Bool)
  deriving DecidableEq, Repr

/-- A template (src/types.ts `Template`).  `pdfData` is modelled by its
parse result: `none` when `PDFDocument.load` rejects the stored bytes. -/
structure Template where
  name : String
  pdfData : Option Doc
  fields : List TemplateField
  mappings : List Mapping
  createdAt : Nat
  deriving DecidableEq, Repr

/-- One invocation of an output collaborator during generation: either the
form writer (`field.setText`) or the page text painter (`page.drawText`). -/
inductive GenEvent where
  | formWrite (fieldName value : String)
  | drawText (pageIndex : Nat) (x y : Rat) (text : String) (size : Rat)
      (maxWidth : Option Rat)
  deriving DecidableEq, Repr

/-- The string a generation event writes into the document. -/
def GenEvent.writtenValue : GenEvent → String
  | GenEvent.formWrite _ v => v
  | GenEvent.drawText _ _ _ t _ _ => t

/-- JavaScript object property read `profile.fields[key]`. -/
def lookupField (kvs : List (String × String)) (key : String) : Option String :=
  (kvs.find? (fun kv => kv.1 == key)).map (fun kv => kv.2)

/-- The two transformation statements of `generateFilledPDF`:
`if (t === 'uppercase') v = v.toUpperCase(); if (t === 'lowercase')
v = v.toLowerCase();`. -/
def applyTransform (t : Option String) (v : String) : String :=
  let v1 := if t == some "uppercase" then jsToUpper v else v
  if t == some "lowercase" then jsToLower v1 else v1

/-- Value resolution of `generateFilledPDF` for one mapping:
`profile.fields[mapping.profileKey] || ''` followed by the transformation. -/
def resolvedValue (profile : Profile) (m : Mapping) : String :=
  applyTransform m.transformation (jsOrEmpty (lookupField profile.fields m.profileKey))

/-- The body of the `for (const mapping of template.mappings)` loop in
`generateFilledPDF` (src/services/pdfService.ts), for one mapping: the
writer/painter invocations it performs.  A caught per-field failure, a
stale mapping, a missing page, or missing x/y produce no invocation. -/
def processMapping (fields : List TemplateField) (doc : Doc) (profile : Profile)
    (m : Mapping) : List GenEvent :=
  match fields.find? (fun f => f.id == m.templateFieldId) with
  | Option.none => []
  | some fieldDef =>
    let value := resolvedValue profile m
    if !fieldDef.isManual then
      match doc.settableFields.find? (fun sf => sf.1 == fieldDef.id) with
      | some sf => if sf.2 then [GenEvent.formWrite fieldDef.id value] else []
      | Option.none => []
    else
      match doc.pageHeights[fieldDef.pageIndex]?, fieldDef.x, fieldDef.y with
      | some pageHeight, some xv, some _yv =>
        let fontSize := jsOrNum fieldDef.fontSize 12
        let pdfY := pageHeight - jsOrNum fieldDef.y 0 - jsOrNum fieldDef.height 20 + 4
        [GenEvent.drawText fieldDef.pageIndex xv pdfY value fontSize fieldDef.width]
      | _, _, _ => []

/-- Model of `generateFilledPDF` (src/services/pdfService.ts): parse the stored
bytes (hard failure when they do not load), then run the mapping loop and
return the performed invocations (the observable content of the saved
bytes). -/
def generateFilledPDF (template : Template) (profile : Profile) :
    Except Unit (List GenEvent) :=
  match template.pdfData with
  | Option.none => Except.error ()
  | some doc =>
      Except.ok (template.mappings.flatMap (processMapping template.fields doc profile))

/-- JavaScript array element assignment
`newMappings[i].profileKey = profileKey`. -/
def modifyProfileKeyAt : List Mapping → Nat → String → List Mapping
  | [], _, _ => []
  | m :: ms, 0, key => Mapping.mk m.templateFieldId key m.transformation :: ms
  | m :: ms, i + 1, key => m :: modifyProfileKeyAt ms i key

/-- Model of `saveMapping` (src/components/TemplateEditor.tsx), restricted to its
effect on the mapping array: find the first mapping for the field;
an empty key removes it, a non-empty key overwrites its profileKey in
place or pushes a new mapping. -/
def saveMappingList (ms : List Mapping) (fieldId profileKey : String) : List Mapping :=
  let existingIndex := ms.findIdx? (fun m => m.templateFieldId == fieldId)
  if profileKey == "" then
    match existingIndex with
    | some i => ms.eraseIdx i
    | Option.none => ms
  else
    match existingIndex with
    | some i => modifyProfileKeyAt ms i profileKey
    | Option.none => ms ++ [Mapping.mk fieldId profileKey Option.none]

/-- Model of `deleteField` (src/components/TemplateEditor.tsx): filter the field and
every mapping referencing it out of the template; the second component is
the sequence of `db.templates.update` payloads (exactly one). -/
def deleteField (t : Template) (id : String) : Template × List Template :=
  let newFields := t.fields.filter (fun f => !(f.id == id))
  let newMappings := t.mappings.filter (fun m => !(m.templateFieldId == id))
  let updated := Template.mk t.name t.pdfData newFields newMappings t.createdAt
  (updated, [updated])

/-- The field literal built by `addManualField`
(src/components/TemplateEditor.tsx); `now` is the value of `Date.now()`. -/
def defaultManualField (currentPage : Nat) (now : Nat) : TemplateField :=
  TemplateField.mk ("custom_" ++ toString now) "New Field" FieldType.TEXT true
    (currentPage - 1) (some 50) (some 50) (some 150) (some 30) (some 12)

/-- Result of `addManualField`: the new template state, the sequence of
`db.templates.update` payloads, and the field id passed to
`setSelectedFieldId`. -/
structure AddFieldResult where
  template : Template
  persisted : List Template
  selectedFieldId : String
  deriving DecidableEq, Repr

/-- Model of `addManualField` (src/components/TemplateEditor.tsx): append the
default field on the current page, persist the new template once, select
the new field. -/
def addManualField (t : Template) (currentPage : Nat) (now : Nat) : AddFieldResult :=
  let newField := defaultManualField currentPage now
  let newTemplate := Template.mk t.name t.pdfData (t.fields ++ [newField]) t.mappings t.createdAt
  AddFieldResult.mk newTemplate [newTemplate] newField.id

/-- One `mousemove` step of the resize handler (src/unnamed/part_001,
`onResize`): `updateField(field.id, { width: Math.max(20, startWidth + dx),
height: Math.max(10, startHeight + dy) })`, where dx/dy are the pointer
displacement converted to document points.  `updateField` rewrites every
field whose id matches. -/
def onResize (fields : List TemplateField) (fieldId : String)
    (startWidth startHeight dx dy : Rat) : List TemplateField :=
  fields.map (fun f =>
    if f.id == fieldId then
      TemplateField.mk f.id f.name f.type f.isManual f.pageIndex f.x f.y
        (some (max 20 (startWidth + dx))) (some (max 10 (startHeight + dy))) f.fontSize
    else f)

/-- The `startWidth` captured at resize gesture start: `field.width || 100`. -/
def resizeStartWidth (f : TemplateField) : Rat := jsOrNum f.width 100

/-- The `startHeight` captured at resize gesture start: `field.height || 20`. -/
def resizeStartHeight (f : TemplateField) : Rat := jsOrNum f.height 20

/-- At most one mapping per template field id. -/
def uniqueFieldIds (ms : List Mapping) : Prop :=
  List.Pairwise (fun a b => a.templateFieldId ≠ b.templateFieldId) ms

-- Concrete data for the single-manual-field generation scenario.

/-- The manual field of the end-to-end scenario. -/
def c1Field : TemplateField :=
  TemplateField.mk "custom_1" "New Field" FieldType.TEXT true 0
    (some 50) (some 50) (some 150) (some 30) (some 12)

/-- The scenario template, over a one-page document of height `h`. -/
def c1Template (h : Rat) : Template :=
  Template.mk "t" (some (Doc.mk [h] [])) [c1Field]
    [Mapping.mk "custom_1" "Full Name" Option.none] 0

/-- The scenario profile. -/
def c1Profile : Profile := Profile.mk "Me" [("Full Name", "Jane Doe")]

/-- C1: for a template with one manual field (page 0, x=50, y=50, width=150,
height=30, fontSize=12) bound without transformation to profile key
"Full Name", and a profile mapping "Full Name" to "Jane Doe",
`generateFilledPDF` invokes the page text painter exactly once, on page 0,
with text "Jane Doe", x=50, font size 12, maxWidth 150 and bottom-up
y = pageHeight - 50 - 30 + 4. -/
theorem generate_single_manual_field (h : Rat) :
    generateFilledPDF (c1Template h) c1Profile =
      Except.ok [GenEvent.drawText 0 50 (h - 50 - 30 + 4) "Jane Doe" 12 (some 150)] := by
  simp [generateFilledPDF, c1Template, c1Profile, c1Field, processMapping,
    resolvedValue, lookupField, jsOrEmpty, jsOrNum, applyTransform, List.find?]

/-- Witness for C1: the scenario instantiated on a page of height 100. -/
theorem generate_single_manual_field_witness :
    generateFilledPDF (c1Template 100) c1Profile =
      Except.ok [GenEvent.drawText 0 50 (100 - 50 - 30 + 4) "Jane Doe" 12 (some 150)] :=
  generate_single_manual_field 100

-- Concrete data for the native-field (form writer) scenario.

/-- Parsed document with one settable form field and no pages needed. -/
def c2Doc : Doc := Doc.mk [] [("signature_date", true)]

/-- One detected (non-manual) field named signature_date. -/
def c2Fields : List TemplateField :=
  [TemplateField.mk "signature_date" "signature_date" FieldType.TEXT false 0
    Option.none Option.none Option.none Option.none Option.none]

/-- Binding of signature_date to profile key Date with uppercase. -/
def c2Mapping : Mapping := Mapping.mk "signature_date" "Date" (some "uppercase")

/-- Profile holding the Date value. -/
def c2Profile : Profile := Profile.mk "Me" [("Date", "2024-01-01")]

/-- C2: every value written by the generation loop (form writer or text
painter alike) is the transformation applied to
`profile.fields[mapping.profileKey]`, where a missing key yields the empty
string; uppercase folds to upper case, lowercase to lower case, and any
other tag (including absent) passes the value through unchanged. -/
theorem mapping_value_resolution :
    (∀ fields doc profile m e, e ∈ processMapping fields doc profile m →
        e.writtenValue = applyTransform m.transformation
          (jsOrEmpty (lookupField profile.fields m.profileKey)))
  ∧ (∀ v, applyTransform (some "uppercase") v = jsToUpper v)
  ∧ (∀ v, applyTransform (some "lowercase") v = jsToLower v)
  ∧ (∀ t v, t ≠ some "uppercase" → t ≠ some "lowercase" → applyTransform t v = v)
  ∧ (∀ kvs key, lookupField kvs key = Option.none →
        jsOrEmpty (lookupField kvs key) = "") := by
  refine ⟨?_, fun v => rfl, fun v => rfl, ?_, ?_⟩
  · intro fields doc profile m e he
    unfold processMapping at he
    split at he
    · simp at he
    · split at he
      · split at he
        · split at he
          · simp at he
            subst he
            rfl
          · simp at he
        · simp at he
      · split at he
        · simp at he
          subst he
          rfl
        · simp at he
  · intro t v ht1 ht2
    have h1 : (t == some "uppercase") = false := by simpa using ht1
    have h2 : (t == some "lowercase") = false := by simpa using ht2
    simp [applyTransform, h1, h2]
  · intro kvs key h
    rw [h]
    rfl

/-- Witness for C2: the form-writer scenario value ("2024-01-01" with
uppercase, a no-op on digits and hyphens) and the concrete transformation
facts. -/
theorem mapping_value_resolution_witness :
    (GenEvent.formWrite "signature_date" "2024-01-01").writtenValue =
        applyTransform c2Mapping.transformation
          (jsOrEmpty (lookupField c2Profile.fields c2Mapping.profileKey))
  ∧ applyTransform (some "uppercase") "john doe" = jsToUpper "john doe"
  ∧ applyTransform (some "lowercase") "JOHN" = jsToLower "JOHN"
  ∧ applyTransform (some "none") "MiXed" = "MiXed"
  ∧ jsOrEmpty (lookupField [("a", "b")] "missing") = "" := by
  refine ⟨?_, mapping_value_resolution.2.1 "john doe",
    mapping_value_resolution.2.2.1 "JOHN",
    mapping_value_resolution.2.2.2.1 (some "none") "MiXed" (by decide) (by decide),
    mapping_value_resolution.2.2.2.2 [("a", "b")] "missing" (by decide)⟩
  exact mapping_value_resolution.1 c2Fields c2Doc c2Profile c2Mapping
    (GenEvent.formWrite "signature_date" "2024-01-01") (by decide)

-- Concrete data refuting the claim that all four geometry attributes are
-- required before a manual field is painted.

/-- A manual field with x and y present but width and height absent. -/
def c3Field : TemplateField :=
  TemplateField.mk "f" "F" FieldType.TEXT true 0 (some 50) (some 50)
    Option.none Option.none Option.none

/-- Template holding only that field, over a one-page document of
height 100. -/
def c3Template : Template :=
  Template.mk "t" (some (Doc.mk [100] [])) [c3Field]
    [Mapping.mk "f" "k" Option.none] 0

/-- Profile giving the bound key the value "v". -/
def c3Profile : Profile := Profile.mk "P" [("k", "v")]

/-- C3 counterexample: a manual field whose width and height are absent is
still painted (the generator checks only the page and x/y; height defaults
to 20 in the y computation and maxWidth is simply absent), refuting the
claim that text is placed only when all four geometry attributes are
present. -/
theorem manual_field_without_size_still_painted :
    c3Field.isManual = true ∧ c3Field.width = Option.none ∧
    c3Field.height = Option.none ∧
    generateFilledPDF c3Template c3Profile =
      Except.ok [GenEvent.drawText 0 50 (100 - 50 - 20 + 4) "v" 12 Option.none] := by
  refine ⟨rfl, rfl, rfl, ?_⟩
  simp [generateFilledPDF, c3Template, c3Profile, c3Field, processMapping,
    resolvedValue, lookupField, jsOrEmpty, jsOrNum, applyTransform, List.find?]

/-- C3 amended: the generator paints a manual field exactly when its page
index is within the document's page range and its x and y are present
(width and height are not required); a manual field failing these checks
contributes nothing, and generation is a per-mapping pass that never
aborts the remaining mappings once the document has loaded. -/
theorem manual_field_paint_condition :
    (∀ fields doc profile m fieldDef,
        fields.find? (fun f => f.id == m.templateFieldId) = some fieldDef →
        fieldDef.isManual = true →
        (processMapping fields doc profile m ≠ [] ↔
          fieldDef.pageIndex < doc.pageHeights.length ∧
            fieldDef.x.isSome = true ∧ fieldDef.y.isSome = true))
  ∧ (∀ t doc profile, t.pdfData = some doc →
        generateFilledPDF t profile =
          Except.ok (t.mappings.flatMap (processMapping t.fields doc profile))) := by
  constructor
  · intro fields doc profile m fieldDef hfind hman
    unfold processMapping
    rw [hfind]
    rcases hpg : doc.pageHeights[fieldDef.pageIndex]? with _ | ph
    · have hlen : ¬ fieldDef.pageIndex < doc.pageHeights.length := by
        simpa [List.getElem?_eq_none_iff] using hpg
      rcases hx : fieldDef.x with _ | xv <;> rcases hy : fieldDef.y with _ | yv <;>
        simp [hman, hpg, hx, hy, hlen]
    · have hlen : fieldDef.pageIndex < doc.pageHeights.length := by
        have := List.getElem?_eq_some_iff.mp hpg
        exact this.1
      rcases hx : fieldDef.x with _ | xv <;> rcases hy : fieldDef.y with _ | yv <;>
        simp [hman, hpg, hx, hy, hlen]
  · intro t doc profile h
    unfold generateFilledPDF
    rw [h]

/-- Witness for C3 amended: the width/height-free field above satisfies the
paint condition, so its processing is non-empty. -/
theorem manual_field_paint_condition_witness :
    processMapping [c3Field] (Doc.mk [100] []) c3Profile
      (Mapping.mk "f" "k" Option.none) ≠ [] :=
  (manual_field_paint_condition.1 [c3Field] (Doc.mk [100] []) c3Profile
    (Mapping.mk "f" "k" Option.none) c3Field rfl rfl).mpr (by decide)

/-- Unfolding of `saveMappingList` on the empty mapping array. -/
theorem saveMappingList_nil (fieldId key : String) :
    saveMappingList [] fieldId key =
      if key == "" then [] else [Mapping.mk fieldId key Option.none] := by
  by_cases hk : (key == "") = true <;> simp [saveMappingList, hk]

/-- Unfolding of `saveMappingList` on a cons cell: the head is handled when
it is the first match, otherwise it is kept and the tail is processed. -/
theorem saveMappingList_cons (m : Mapping) (ms : List Mapping) (fieldId key : String) :
    saveMappingList (m :: ms) fieldId key =
      if m.templateFieldId == fieldId then
        (if key == "" then ms
         else Mapping.mk m.templateFieldId key m.transformation :: ms)
      else m :: saveMappingList ms fieldId key := by
  by_cases hm : (m.templateFieldId == fieldId) = true
  · by_cases hk : (key == "") = true <;>
      simp [saveMappingList, List.findIdx?_cons, hm, hk, modifyProfileKeyAt]
  · by_cases hk : (key == "") = true <;>
      cases h : ms.findIdx? (fun x => x.templateFieldId == fieldId) with
      | none =>
          simp [saveMappingList, List.findIdx?_cons, hm, hk, List.findIdx?_succ, h]
      | some i =>
          simp [saveMappingList, List.findIdx?_cons, hm, hk, List.findIdx?_succ, h,
            modifyProfileKeyAt, List.eraseIdx_cons_succ]

/-- Every mapping array either has no mapping for the field, or splits at
the first mapping for it. -/
theorem first_match_decomp (ms : List Mapping) (fieldId : String) :
    (∀ x ∈ ms, x.templateFieldId ≠ fieldId) ∨
      ∃ pre m post, ms = pre ++ m :: post ∧
        (∀ x ∈ pre, x.templateFieldId ≠ fieldId) ∧ m.templateFieldId = fieldId := by
  induction ms with
  | nil => exact Or.inl (by simp)
  | cons a ms ih =>
    by_cases ha : a.templateFieldId = fieldId
    · exact Or.inr ⟨[], a, ms, by simp, by simp, ha⟩
    · rcases ih with h | ⟨pre, m, post, hms, hpre, hm⟩
      · refine Or.inl ?_
        intro x hx
        rcases List.mem_cons.mp hx with h1 | h1
        · rw [h1]; exact ha
        · exact h x h1
      · refine Or.inr ⟨a :: pre, m, post, by simp [hms], ?_, hm⟩
        intro x hx
        rcases List.mem_cons.mp hx with h1 | h1
        · rw [h1]; exact ha
        · exact hpre x h1

/-- Behavior of `saveMappingList` when no mapping for the field exists: no-op for the
empty key, append of a fresh transformation-free mapping otherwise. -/
theorem saveMappingList_no_match (ms : List Mapping) (fieldId key : String)
    (h : ∀ x ∈ ms, x.templateFieldId ≠ fieldId) :
    saveMappingList ms fieldId key =
      if key == "" then ms else ms ++ [Mapping.mk fieldId key Option.none] := by
  induction ms with
  | nil => exact saveMappingList_nil fieldId key
  | cons a ms ih =>
    have ha : (a.templateFieldId == fieldId) = false := by
      simpa using h a (List.mem_cons_self a ms)
    rw [saveMappingList_cons, ha]
    simp only [Bool.false_eq_true, if_false]
    rw [ih (fun x hx => h x (List.mem_cons_of_mem a hx))]
    by_cases hk : (key == "") = true <;> simp [hk]

/-- Behavior of `saveMappingList` at the first mapping for the field: removal for the
empty key, in-place profileKey overwrite (transformation untouched)
otherwise. -/
theorem saveMappingList_first_match (pre : List Mapping) (m : Mapping)
    (post : List Mapping) (fieldId key : String)
    (hpre : ∀ x ∈ pre, x.templateFieldId ≠ fieldId)
    (hm : m.templateFieldId = fieldId) :
    saveMappingList (pre ++ m :: post) fieldId key =
      if key == "" then pre ++ post
      else pre ++ Mapping.mk m.templateFieldId key m.transformation :: post := by
  induction pre with
  | nil =>
    rw [List.nil_append, saveMappingList_cons]
    have : (m.templateFieldId == fieldId) = true := by simpa using hm
    rw [this]
    by_cases hk : (key == "") = true <;> simp [hk]
  | cons a pre ih =>
    have ha : (a.templateFieldId == fieldId) = false := by
      simpa using hpre a (List.mem_cons_self a pre)
    rw [List.cons_append, saveMappingList_cons, ha]
    simp only [Bool.false_eq_true, if_false]
    rw [ih (fun x hx => hpre x (List.mem_cons_of_mem a hx))]
    by_cases hk : (key == "") = true <;> simp [hk]

/-- A pairwise-distinct mapping array has at most one entry per field id. -/
theorem countP_le_one_of_unique (ms : List Mapping) (hu : uniqueFieldIds ms)
    (fid : String) :
    ms.countP (fun m => m.templateFieldId == fid) ≤ 1 := by
  induction ms with
  | nil => simp
  | cons a ms ih =>
    rcases List.pairwise_cons.mp hu with ⟨ha, hms⟩
    rw [List.countP_cons]
    by_cases h : (a.templateFieldId == fid) = true
    · have hafid : a.templateFieldId = fid := by simpa using h
      have hzero : ms.countP (fun m => m.templateFieldId == fid) = 0 := by
        rw [List.countP_eq_zero]
        intro b hb
        have hne := ha b hb
        rw [hafid] at hne
        simpa using fun hbf => hne hbf.symm
      rw [hzero, h]
      simp
    · have h' : (a.templateFieldId == fid) = false := by simpa using h
      rw [h']
      simpa using ih hms

/-- C4: starting from a mapping array with at most one mapping per field
id, `saveMapping` keeps it that way: a non-empty key overwrites the
existing mapping's profileKey in place (same length, exactly one entry for
the field, bound to the new key) or appends exactly one new mapping when
none exists, and the empty key removes the field's mapping entirely, so an
empty-key mapping is never stored. -/
theorem save_mapping_uniqueness (ms : List Mapping) (fieldId key : String)
    (hu : uniqueFieldIds ms) :
    uniqueFieldIds (saveMappingList ms fieldId key)
  ∧ (∀ fid, (saveMappingList ms fieldId key).countP
        (fun m => m.templateFieldId == fid) ≤ 1)
  ∧ (key = "" →
        saveMappingList ms fieldId key =
          ms.filter (fun m => !(m.templateFieldId == fieldId)))
  ∧ (key ≠ "" → (∃ m ∈ ms, m.templateFieldId = fieldId) →
        (saveMappingList ms fieldId key).length = ms.length ∧
        (saveMappingList ms fieldId key).countP
            (fun m => m.templateFieldId == fieldId) = 1 ∧
        ∀ m ∈ saveMappingList ms fieldId key,
          m.templateFieldId = fieldId → m.profileKey = key)
  ∧ (key ≠ "" → (∀ m ∈ ms, m.templateFieldId ≠ fieldId) →
        saveMappingList ms fieldId key = ms ++ [Mapping.mk fieldId key Option.none])
  ∧ ((∀ m ∈ ms, m.profileKey ≠ "") →
        ∀ m ∈ saveMappingList ms fieldId key, m.profileKey ≠ "") := by
  rcases first_match_decomp ms fieldId with hno | ⟨pre, mm, post, hms, hpre, hmm⟩
  · -- no existing mapping for the field
    have hsave := saveMappingList_no_match ms fieldId key hno
    by_cases hk : key = ""
    · rw [if_pos (by simp [hk])] at hsave
      rw [hsave]
      refine ⟨hu, countP_le_one_of_unique ms hu, ?_, ?_, ?_, ?_⟩
      · intro _
        refine (List.filter_eq_self.mpr ?_).symm
        intro a ha
        simpa using hno a ha
      · intro hk2 _
        exact absurd hk hk2
      · intro hk2 _
        exact absurd hk hk2
      · intro h m hm2
        exact h m hm2
    · rw [if_neg (by simp [hk])] at hsave
      rw [hsave]
      have hnew : (Mapping.mk fieldId key Option.none).templateFieldId = fieldId := rfl
      refine ⟨?_, ?_, ?_, ?_, ?_, ?_⟩
      · refine List.pairwise_append.mpr ⟨hu, List.pairwise_singleton _ _, ?_⟩
        intro a ha b hb
        rw [List.mem_singleton.mp hb]
        intro hcontra
        exact hno a ha hcontra
      · intro fid
        rw [List.countP_append]
        by_cases hfid : fid = fieldId
        · have h0 : ms.countP (fun m => m.templateFieldId == fid) = 0 := by
            rw [List.countP_eq_zero]
            intro b hb
            simpa [hfid] using hno b hb
          rw [h0, List.countP_cons]
          simp only [List.countP_nil, Nat.zero_add]
          split <;> simp
        · have h1 : ([Mapping.mk fieldId key Option.none]).countP
              (fun m => m.templateFieldId == fid) = 0 := by
            rw [List.countP_eq_zero]
            intro b hb
            rw [List.mem_singleton.mp hb]
            simpa using fun h => hfid h.symm
          rw [h1]
          simpa using countP_le_one_of_unique ms hu fid
      · intro hk2
        exact absurd hk2 hk
      · intro _ hex
        rcases hex with ⟨m, hm2, hid⟩
        exact absurd hid (hno m hm2)
      · intro _ _
        rfl
      · intro h m hm2
        rcases List.mem_append.mp hm2 with h1 | h1
        · exact h m h1
        · rw [List.mem_singleton.mp h1]
          exact hk
  · -- first existing mapping for the field is mm, at position pre.length
    subst hms
    have hsave := saveMappingList_first_match pre mm post fieldId key hpre hmm
    rcases List.pairwise_append.mp hu with ⟨hupre, hucons, hcross⟩
    rcases List.pairwise_cons.mp hucons with ⟨hmmpost, hupost⟩
    have hpost : ∀ b ∈ post, b.templateFieldId ≠ fieldId := by
      intro b hb hbf
      exact hmmpost b hb (hmm.trans hbf.symm)
    by_cases hk : key = ""
    · rw [if_pos (by simp [hk])] at hsave
      rw [hsave]
      have hsub : (pre ++ post).Sublist (pre ++ mm :: post) :=
        List.Sublist.append_left (List.sublist_cons_self mm post) pre
      have hu2 : uniqueFieldIds (pre ++ post) := List.Pairwise.sublist hsub hu
      refine ⟨hu2, countP_le_one_of_unique _ hu2, ?_, ?_, ?_, ?_⟩
      · intro _
        rw [List.filter_append, List.filter_cons]
        have hmmf : (!(mm.templateFieldId == fieldId)) = false := by simp [hmm]
        rw [hmmf]
        have h1 : pre.filter (fun m => !(m.templateFieldId == fieldId)) = pre :=
          List.filter_eq_self.mpr (fun a ha => by simpa using hpre a ha)
        have h2 : post.filter (fun m => !(m.templateFieldId == fieldId)) = post :=
          List.filter_eq_self.mpr (fun a ha => by simpa using hpost a ha)
        rw [h1, h2]
        simp
      · intro hk2 _
        exact absurd hk hk2
      · intro hk2 _
        exact absurd hk hk2
      · intro h m hm2
        refine h m (List.Sublist.mem hm2 hsub)
    · rw [if_neg (by simp [hk])] at hsave
      rw [hsave]
      have hupd : (Mapping.mk mm.templateFieldId key mm.transformation).templateFieldId
          = fieldId := hmm
      have hu2 : uniqueFieldIds
          (pre ++ Mapping.mk mm.templateFieldId key mm.transformation :: post) := by
        refine List.pairwise_append.mpr ⟨hupre, ?_, ?_⟩
        · refine List.pairwise_cons.mpr ⟨?_, hupost⟩
          intro b hb
          exact hmmpost b hb
        · intro a ha b hb
          rcases List.mem_cons.mp hb with h1 | h1
          · rw [h1]
            exact hcross a ha mm (List.mem_cons_self mm post)
          · exact hcross a ha b (List.mem_cons_of_mem mm h1)
      refine ⟨hu2, countP_le_one_of_unique _ hu2, ?_, ?_, ?_, ?_⟩
      · intro hk2
        exact absurd hk2 hk
      · intro _ _
        refine ⟨by simp, ?_, ?_⟩
        · rw [List.countP_append, List.countP_cons]
          have h1 : pre.countP (fun m => m.templateFieldId == fieldId) = 0 := by
            rw [List.countP_eq_zero]
            intro b hb
            simpa using hpre b hb
          have h2 : post.countP (fun m => m.templateFieldId == fieldId) = 0 := by
            rw [List.countP_eq_zero]
            intro b hb
            simpa using hpost b hb
          rw [h1, h2]
          simp [hmm]
        · intro m hm2 hmid
          rcases List.mem_append.mp hm2 with h1 | h1
          · exact absurd hmid (hpre m h1)
          · rcases List.mem_cons.mp h1 with h2 | h2
            · rw [h2]
            · exact absurd hmid (hpost m h2)
      · intro _ hall
        exact absurd hmm (hall mm (List.mem_append.mpr
          (Or.inr (List.mem_cons_self mm post))))
      · intro h m hm2
        rcases List.mem_append.mp hm2 with h1 | h1
        · exact h m (List.mem_append.mpr (Or.inl h1))
        · rcases List.mem_cons.mp h1 with h2 | h2
          · rw [h2]
            exact hk
          · exact h m (List.mem_append.mpr (Or.inr (List.mem_cons_of_mem mm h2)))

/-- Witness for C4: rebinding the first of two mappings leaves exactly one
mapping for the field, at unchanged array length. -/
theorem save_mapping_uniqueness_witness :
    (saveMappingList [Mapping.mk "a" "K" (some "none"), Mapping.mk "b" "L" Option.none]
        "a" "Full Name").countP (fun m => m.templateFieldId == "a") = 1 :=
  ((save_mapping_uniqueness
      [Mapping.mk "a" "K" (some "none"), Mapping.mk "b" "L" Option.none]
      "a" "Full Name" (by unfold uniqueFieldIds; decide)).2.2.2.1 (by decide)
    ⟨Mapping.mk "a" "K" (some "none"), by decide, rfl⟩).2.1

/-- C10: `saveMapping` never sets or alters a transformation tag: a rebind
to a non-empty key keeps the whole array's transformation (and field id)
columns unchanged, a newly appended mapping carries no transformation, and
every transformation in the saved array is either inherited from the
previous array or absent. -/
theorem save_mapping_preserves_transformation (ms : List Mapping) (fieldId key : String) :
    (key ≠ "" → (∃ m ∈ ms, m.templateFieldId = fieldId) →
        (saveMappingList ms fieldId key).map Mapping.transformation =
          ms.map Mapping.transformation ∧
        (saveMappingList ms fieldId key).map Mapping.templateFieldId =
          ms.map Mapping.templateFieldId)
  ∧ (key ≠ "" → (∀ m ∈ ms, m.templateFieldId ≠ fieldId) →
        saveMappingList ms fieldId key = ms ++ [Mapping.mk fieldId key Option.none])
  ∧ (∀ m ∈ saveMappingList ms fieldId key,
        m.transformation ∈ ms.map Mapping.transformation ∨
          m.transformation = Option.none) := by
  rcases first_match_decomp ms fieldId with hno | ⟨pre, mm, post, hms, hpre, hmm⟩
  · have hsave := saveMappingList_no_match ms fieldId key hno
    refine ⟨?_, ?_, ?_⟩
    · intro _ hex
      rcases hex with ⟨m, hm2, hid⟩
      exact absurd hid (hno m hm2)
    · intro hk _
      rw [hsave, if_neg (by simp [hk])]
    · intro m hm2
      rw [hsave] at hm2
      by_cases hk : key = ""
      · rw [if_pos (by simp [hk])] at hm2
        exact Or.inl (List.mem_map_of_mem Mapping.transformation hm2)
      · rw [if_neg (by simp [hk])] at hm2
        rcases List.mem_append.mp hm2 with h1 | h1
        · exact Or.inl (List.mem_map_of_mem Mapping.transformation h1)
        · rw [List.mem_singleton.mp h1]
          exact Or.inr rfl
  · subst hms
    have hsave := saveMappingList_first_match pre mm post fieldId key hpre hmm
    refine ⟨?_, ?_, ?_⟩
    · intro hk _
      rw [hsave, if_neg (by simp [hk])]
      constructor <;> simp
    · intro _ hall
      exact absurd hmm (hall mm (List.mem_append.mpr
        (Or.inr (List.mem_cons_self mm post))))
    · intro m hm2
      rw [hsave] at hm2
      by_cases hk : key = ""
      · rw [if_pos (by simp [hk])] at hm2
        rcases List.mem_append.mp hm2 with h1 | h1
        · exact Or.inl (List.mem_map_of_mem Mapping.transformation
            (List.mem_append.mpr (Or.inl h1)))
        · exact Or.inl (List.mem_map_of_mem Mapping.transformation
            (List.mem_append.mpr (Or.inr (List.mem_cons_of_mem mm h1))))
      · rw [if_neg (by simp [hk])] at hm2
        rcases List.mem_append.mp hm2 with h1 | h1
        · exact Or.inl (List.mem_map_of_mem Mapping.transformation
            (List.mem_append.mpr (Or.inl h1)))
        · rcases List.mem_cons.mp h1 with h2 | h2
          · refine Or.inl ?_
            rw [h2]
            exact List.mem_map.mpr ⟨mm,
              List.mem_append.mpr (Or.inr (List.mem_cons_self mm post)), rfl⟩
          · exact Or.inl (List.mem_map_of_mem Mapping.transformation
              (List.mem_append.mpr (Or.inr (List.mem_cons_of_mem mm h2))))

/-- Witness for C10: rebinding a mapping that carries an uppercase
transformation keeps that transformation. -/
theorem save_mapping_preserves_transformation_witness :
    (saveMappingList [Mapping.mk "a" "K" (some "uppercase")] "a" "NewKey").map
        Mapping.transformation = [some "uppercase"] := by
  have h := (save_mapping_preserves_transformation
      [Mapping.mk "a" "K" (some "uppercase")] "a" "NewKey").1 (by decide)
    ⟨Mapping.mk "a" "K" (some "uppercase"), by decide, rfl⟩
  exact h.1.trans (by decide)

-- Concrete data for the cascade-deletion scenario.

/-- A manual field named a. -/
def c5FieldA : TemplateField :=
  TemplateField.mk "a" "A" FieldType.TEXT true 0 Option.none Option.none
    Option.none Option.none Option.none

/-- A manual field named b. -/
def c5FieldB : TemplateField :=
  TemplateField.mk "b" "B" FieldType.TEXT true 0 Option.none Option.none
    Option.none Option.none Option.none

/-- A template with two fields, each mapped. -/
def c5Template : Template :=
  Template.mk "t" Option.none [c5FieldA, c5FieldB]
    [Mapping.mk "a" "K" Option.none, Mapping.mk "b" "L" Option.none] 0

/-- C5: deleteField removes the field with the given id together with every
mapping referencing it, in one persisted update, and preserves referential
integrity: if every mapping referenced an existing field before, the same
holds after. -/
theorem delete_field_cascades (t : Template) (id : String) :
    (deleteField t id).2 = [(deleteField t id).1]
  ∧ (∀ f, f ∈ (deleteField t id).1.fields ↔ f ∈ t.fields ∧ f.id ≠ id)
  ∧ (∀ m, m ∈ (deleteField t id).1.mappings ↔
      m ∈ t.mappings ∧ m.templateFieldId ≠ id)
  ∧ ((∀ m ∈ t.mappings, ∃ f ∈ t.fields, f.id = m.templateFieldId) →
      ∀ m ∈ (deleteField t id).1.mappings,
        ∃ f ∈ (deleteField t id).1.fields, f.id = m.templateFieldId) := by
  have hfields : ∀ f, f ∈ (deleteField t id).1.fields ↔ f ∈ t.fields ∧ f.id ≠ id := by
    intro f
    simp [deleteField, List.mem_filter]
  have hmaps : ∀ m, m ∈ (deleteField t id).1.mappings ↔
      m ∈ t.mappings ∧ m.templateFieldId ≠ id := by
    intro m
    simp [deleteField, List.mem_filter]
  refine ⟨rfl, hfields, hmaps, ?_⟩
  intro h m hm2
  rcases (hmaps m).mp hm2 with ⟨hmem, hne⟩
  rcases h m hmem with ⟨f, hf, hfid⟩
  refine ⟨f, (hfields f).mpr ⟨hf, ?_⟩, hfid⟩
  rw [hfid]
  exact hne

/-- Witness for C5: after deleting field a, field b survives and the update
is persisted once. -/
theorem delete_field_cascades_witness :
    c5FieldB ∈ (deleteField c5Template "a").1.fields ∧
    (deleteField c5Template "a").2 = [(deleteField c5Template "a").1] :=
  ⟨((delete_field_cascades c5Template "a").2.1 c5FieldB).mpr (by decide),
    (delete_field_cascades c5Template "a").1⟩

/-- Elements on which the processing function returns nothing can be
filtered out of a flatMap. -/
theorem flatMap_filter_of_none {α β : Type} (p : α → Bool) (g : α → List β)
    (h : ∀ a, p a = false → g a = []) :
    ∀ l : List α, l.flatMap g = (l.filter p).flatMap g := by
  intro l
  induction l with
  | nil => rfl
  | cons a l ih =>
    by_cases hp : p a = true
    · simp [List.filter_cons, hp, ih]
    · have hga := h a (by simpa using hp)
      simp [List.filter_cons, hp, hga, ih]

/-- C6: a mapping whose field id matches no field contributes nothing, and
generation over a document that loads always succeeds, producing exactly
the events of the mappings whose field still exists. -/
theorem stale_mapping_skipped :
    (∀ fields doc profile m, (∀ f ∈ fields, f.id ≠ m.templateFieldId) →
        processMapping fields doc profile m = [])
  ∧ (∀ t doc profile, t.pdfData = some doc →
        generateFilledPDF t profile =
          Except.ok ((t.mappings.filter
              (fun m => t.fields.any (fun f => f.id == m.templateFieldId))).flatMap
            (processMapping t.fields doc profile))) := by
  have part1 : ∀ fields doc profile m, (∀ f ∈ fields, f.id ≠ m.templateFieldId) →
      processMapping fields doc profile m = [] := by
    intro fields doc profile m h
    have hfind : fields.find? (fun f => f.id == m.templateFieldId) = Option.none := by
      rw [List.find?_eq_none]
      intro f hf
      simpa using h f hf
    unfold processMapping
    rw [hfind]
  refine ⟨part1, ?_⟩
  intro t doc profile h
  have hx : ∀ m, (t.fields.any fun f => f.id == m.templateFieldId) = false →
      processMapping t.fields doc profile m = [] := by
    intro m hm2
    apply part1
    intro f hf heq
    exact (List.any_eq_false.mp hm2) f hf (by simpa using heq)
  have hgen : generateFilledPDF t profile =
      Except.ok (t.mappings.flatMap (processMapping t.fields doc profile)) := by
    unfold generateFilledPDF
    rw [h]
  rw [hgen, flatMap_filter_of_none _ _ hx t.mappings]

-- Concrete data for the stale-mapping scenario.

/-- A detected (non-manual) field named a. -/
def c6Field : TemplateField :=
  TemplateField.mk "a" "A" FieldType.TEXT false 0 Option.none Option.none
    Option.none Option.none Option.none

/-- Document with the settable form field a. -/
def c6Doc : Doc := Doc.mk [] [("a", true)]

/-- Profile holding the key k. -/
def c6Profile : Profile := Profile.mk "P" [("k", "x")]

/-- Template whose mapping set has one valid entry and one stale entry
referencing the deleted field id ghost. -/
def c6Template : Template :=
  Template.mk "t" (some c6Doc) [c6Field]
    [Mapping.mk "a" "k" Option.none, Mapping.mk "ghost" "k" Option.none] 0

/-- Witness for C6: the stale mapping is skipped and generation still fills
the valid mapping. -/
theorem stale_mapping_skipped_witness :
    processMapping [c6Field] c6Doc c6Profile (Mapping.mk "ghost" "k" Option.none) = []
  ∧ generateFilledPDF c6Template c6Profile =
      Except.ok [GenEvent.formWrite "a" "x"] := by
  refine ⟨stale_mapping_skipped.1 [c6Field] c6Doc c6Profile _ (by decide), ?_⟩
  exact (stale_mapping_skipped.2 c6Template c6Doc c6Profile rfl).trans
    (congrArg Except.ok (by decide))

/-- C7: a non-manual field whose form write fails (name unknown to the
form, or the set rejected) is caught locally: generation still returns
complete output covering every other mapping; only a template whose stored
bytes fail to load is a hard error. -/
theorem field_write_failure_isolated :
    (∀ t doc profile pre mBad post fieldDef,
        t.pdfData = some doc →
        t.mappings = pre ++ mBad :: post →
        t.fields.find? (fun f => f.id == mBad.templateFieldId) = some fieldDef →
        fieldDef.isManual = false →
        (∀ sf ∈ doc.settableFields, sf.1 = fieldDef.id → sf.2 = false) →
        generateFilledPDF t profile =
          Except.ok (pre.flatMap (processMapping t.fields doc profile) ++
            post.flatMap (processMapping t.fields doc profile)))
  ∧ (∀ t profile, t.pdfData = Option.none →
        generateFilledPDF t profile = Except.error ()) := by
  constructor
  · intro t doc profile pre mBad post fieldDef hload hmaps hfind hman hfail
    have hbad : processMapping t.fields doc profile mBad = [] := by
      unfold processMapping
      rw [hfind]
      cases hsf : doc.settableFields.find? (fun sf => sf.1 == fieldDef.id) with
      | none => simp [hman, hsf]
      | some sf =>
        have hmem := List.mem_of_find?_eq_some hsf
        have hflag : sf.2 = false :=
          hfail sf hmem (by simpa using List.find?_some hsf)
        simp [hman, hsf, hflag]
    have hgen : generateFilledPDF t profile =
        Except.ok ((pre ++ mBad :: post).flatMap
          (processMapping t.fields doc profile)) := by
      unfold generateFilledPDF
      rw [hload, hmaps]
    rw [hgen, List.flatMap_append, List.flatMap_cons, hbad]
    simp
  · intro t profile h
    unfold generateFilledPDF
    rw [h]

-- Concrete data for the failing-form-write scenario.

/-- A writable detected field named g. -/
def c7Good : TemplateField :=
  TemplateField.mk "g" "G" FieldType.TEXT false 0 Option.none Option.none
    Option.none Option.none Option.none

/-- A detected field named b whose set is rejected by the form. -/
def c7Bad : TemplateField :=
  TemplateField.mk "b" "B" FieldType.TEXT false 0 Option.none Option.none
    Option.none Option.none Option.none

/-- Document where g is settable and setting b raises. -/
def c7Doc : Doc := Doc.mk [] [("g", true), ("b", false)]

/-- Mapping of g to key k. -/
def c7MapGood : Mapping := Mapping.mk "g" "k" Option.none

/-- Mapping of b to key k. -/
def c7MapBad : Mapping := Mapping.mk "b" "k" Option.none

/-- Profile holding the key k. -/
def c7Profile : Profile := Profile.mk "P" [("k", "x")]

/-- Template whose middle mapping targets the failing field b. -/
def c7Template : Template :=
  Template.mk "t" (some c7Doc) [c7Good, c7Bad]
    [c7MapGood, c7MapBad, c7MapGood] 0

/-- Witness for C7: with the middle mapping's form write failing, both
surrounding mappings are still written and complete output is returned. -/
theorem field_write_failure_isolated_witness :
    generateFilledPDF c7Template c7Profile =
      Except.ok [GenEvent.formWrite "g" "x", GenEvent.formWrite "g" "x"] := by
  have h := field_write_failure_isolated.1 c7Template c7Doc c7Profile
    [c7MapGood] c7MapBad [c7MapGood] c7Bad rfl rfl rfl rfl (by decide)
  exact h.trans (congrArg Except.ok (by decide))

-- Concrete data refuting unconditional id freshness of addManualField.

/-- A template that already contains the field created at timestamp 5. -/
def c8Template : Template :=
  Template.mk "t" Option.none [defaultManualField 1 5] [] 0

/-- C8 counterexample: `addManualField` derives the id from `Date.now()`
alone, so a second call with the same timestamp duplicates an existing id
instead of assigning a fresh unique one. -/
theorem add_manual_field_duplicate_id :
    ((addManualField c8Template 1 5).template.fields.map TemplateField.id) =
      ["custom_5", "custom_5"]
  ∧ ¬ ((addManualField c8Template 1 5).template.fields.map TemplateField.id).Nodup := by
  constructor <;> decide

/-- C8 amended: `addManualField` appends exactly the default box (x=50,
y=50, width=150, height=30, fontSize=12, TEXT, manual, current page) with
id `custom_<now>`, persists the new template once, and selects the new
field; the id is unique within the field set provided no existing field
already bears the id derived from that timestamp. -/
theorem add_manual_field_spec (t : Template) (currentPage now : Nat)
    (hfresh : ∀ f ∈ t.fields, f.id ≠ "custom_" ++ toString now) :
    (addManualField t currentPage now).template.fields =
        t.fields ++ [TemplateField.mk ("custom_" ++ toString now) "New Field"
          FieldType.TEXT true (currentPage - 1) (some 50) (some 50) (some 150)
          (some 30) (some 12)]
  ∧ (addManualField t currentPage now).persisted =
      [(addManualField t currentPage now).template]
  ∧ (addManualField t currentPage now).selectedFieldId = "custom_" ++ toString now
  ∧ ("custom_" ++ toString now) ∉ t.fields.map TemplateField.id
  ∧ ((t.fields.map TemplateField.id).Nodup →
      ((addManualField t currentPage now).template.fields.map TemplateField.id).Nodup)
  ∧ (addManualField t currentPage now).template.mappings = t.mappings
  ∧ (addManualField t currentPage now).template.pdfData = t.pdfData := by
  refine ⟨rfl, rfl, rfl, ?_, ?_, rfl, rfl⟩
  · intro hmem
    rcases List.mem_map.mp hmem with ⟨f, hf, hfid⟩
    exact hfresh f hf hfid
  · intro hnd
    have heq : (addManualField t currentPage now).template.fields.map TemplateField.id =
        t.fields.map TemplateField.id ++ ["custom_" ++ toString now] := by
      simp [addManualField, defaultManualField]
    rw [heq]
    refine List.Nodup.append hnd (List.nodup_singleton _) ?_
    intro x hx1 hx2
    rw [List.mem_singleton.mp hx2] at hx1
    rcases List.mem_map.mp hx1 with ⟨f, hf, hfid⟩
    exact hfresh f hf hfid

/-- An empty template for the witness. -/
def c8Empty : Template := Template.mk "t" Option.none [] [] 0

/-- Witness for C8 amended: adding to an empty template selects the field
custom_7. -/
theorem add_manual_field_spec_witness :
    (addManualField c8Empty 1 7).selectedFieldId = "custom_7" :=
  ((add_manual_field_spec c8Empty 1 7 (by decide)).2.2.1).trans (by decide)

/-- C9: after any resize step, every field carrying the resized id has
width at least 20 points and height at least 10 points, for every pointer
displacement and every starting size. -/
theorem resize_clamps_minimum (fields : List TemplateField) (fieldId : String)
    (startWidth startHeight dx dy : Rat) (f : TemplateField)
    (hf : f ∈ onResize fields fieldId startWidth startHeight dx dy)
    (hid : f.id = fieldId) :
    20 ≤ f.width.getD 0 ∧ 10 ≤ f.height.getD 0 := by
  rcases List.mem_map.mp hf with ⟨g, hg, hgf⟩
  by_cases h : (g.id == fieldId) = true
  · simp only [h, if_true] at hgf
    rw [← hgf]
    constructor
    · simp
    · simp
  · simp only [h, Bool.false_eq_true, if_false] at hgf
    rw [← hgf] at hid
    exact absurd (by simpa using hid) h

/-- The selected field before the resize gesture. -/
def c9Before : TemplateField :=
  TemplateField.mk "r" "N" FieldType.TEXT true 0 Option.none Option.none
    (some 100) (some 20) Option.none

/-- The field after a far up-left drag of the resize handle. -/
def c9After : TemplateField :=
  TemplateField.mk "r" "N" FieldType.TEXT true 0 Option.none Option.none
    (some (max 20 (100 + (-500)))) (some (max 10 (20 + (-500)))) Option.none

/-- Witness for C9: a 500-point up-left drag on a 100 by 20 box still
leaves width at least 20 and height at least 10. -/
theorem resize_clamps_minimum_witness :
    20 ≤ c9After.width.getD 0 ∧ 10 ≤ c9After.height.getD 0 :=
  resize_clamps_minimum [c9Before] "r" 100 20 (-500) (-500) c9After
    (List.mem_cons_self c9After []) rfl

end PdfFill
